import Mathlib

/-!
Verification of the GitHub profile analyzer backend (Express server).

The definitions below are a shallow embedding of the backend source:
`calculateHireabilityScore`, `filterLowValueRepos`, the language
aggregation loop, the `shouldFilter` query flag, and the
`/api/analyze/:username` request handler.  Machine numbers from the
upstream API (follower counts, repository sizes, byte counts) are
non-negative integers, modelled as `Nat`; score arithmetic, which in
JavaScript may pass through negative intermediate values
(`(languageCount - 1) * 10`), is modelled in `Int`.
-/

/-- A GitHub user profile, as consumed by the backend (fields actually
read by the code: `followers`, `public_repos`; `login` kept for identity). -/
structure Profile where
  login : String
  followers : Nat
  public_repos : Nat
deriving DecidableEq

/-- A repository item from the upstream repository list, restricted to the
fields the backend reads: `name`, `fork`, `size`, `description`. -/
structure Repo where
  name : String
  fork : Bool
  size : Nat
  description : Option String
deriving DecidableEq

/-- A JavaScript-object language map, modelled as an association list in
insertion order (JS objects preserve insertion order of string keys). -/
abbrev LangMap := List (String × Nat)

/-- `matchesAt needle hay` : does `needle` occur at the very start of `hay`? -/
def matchesAt : List Char → List Char → Bool
  | [], _ => true
  | _ :: _, [] => false
  | a :: as, b :: bs => a == b && matchesAt as bs

/-- `hasSubstringChars needle hay` : does `needle` occur contiguously
anywhere in `hay`?  Models JavaScript `String.prototype.includes`. -/
def hasSubstringChars (needle : List Char) : List Char → Bool
  | [] => needle.isEmpty
  | b :: bs => matchesAt needle (b :: bs) || hasSubstringChars needle bs

/-- JavaScript `toLowerCase()` (character-wise lowering). -/
def jsToLower (s : String) : String := s.map Char.toLower

/-- The guard `repo.description && repo.description.toLowerCase().includes('template')`.
A missing description (`undefined`/`null`) and the empty string are falsy
in JavaScript, so they never flag a repository. -/
def descMentionsTemplate : Option String → Bool
  | none => false
  | some s => s != "" && hasSubstringChars "template".toList (jsToLower s).toList

/-- `calculateHireabilityScore(profile, repos, langTotals)` from the backend:
three capped terms accumulated into `score`, then a final clamp to [0,100].
`Math.floor(x / k)` on a non-negative numerator is `Nat` division. -/
def calculateHireabilityScore (profile : Profile) (repos : List Repo)
    (langTotals : LangMap) : Int :=
  let score0 : Int := 0
  let publicReposCount := repos.length
  -- Score based on followers (up to 30)
  let score1 := score0 + min 30 ((profile.followers / 10 : Nat) : Int)
  -- Score based on meaningful repo count (up to 30)
  let score2 := score1 + min 30 (((publicReposCount / 5 : Nat) : Int) * 2)
  -- Score based on language diversity (up to 40)
  let languageCount := (langTotals.map Prod.fst).length
  let score3 := score2 + min 40 (max 0 (((languageCount : Int) - 1) * 10))
  min 100 (max 0 score3)

/-- The spec's closed-form score: `min(100, max(0, T_f + T_v + T_d))` with
`T_f = min(30, floor(followers/10))`, `T_v = min(30, floor(repoCount/5)*2)`,
`T_d = min(40, max(0, (distinctLanguageCount - 1) * 10))`.  Stated in the
spec's own terms, to be compared against `calculateHireabilityScore`. -/
def claimScoreFormula (followers repoCount distinctLanguageCount : Nat) : Int :=
  let tF : Int := min 30 ((followers / 10 : Nat) : Int)
  let tV : Int := min 30 (((repoCount / 5 : Nat) : Int) * 2)
  let tD : Int := min 40 (max 0 (((distinctLanguageCount : Int) - 1) * 10))
  min 100 (max 0 (tF + tV + tD))

/-- `filterLowValueRepos(repos)` from the backend: drop forks, repositories
of size below 100, and repositories whose description mentions "template". -/
def filterLowValueRepos (repos : List Repo) : List Repo :=
  let minLinesOfCode := 100
  repos.filter fun repo =>
    if repo.fork then false
    else if repo.size < minLinesOfCode then false
    else if descMentionsTemplate repo.description then false
    else true

/-- The spec's `filter(repos, enabled)`: the orchestrator's conditional
application of `filterLowValueRepos` under the request flag. -/
def applyFilter (repos : List Repo) (enabled : Bool) : List Repo :=
  if enabled then filterLowValueRepos repos else repos

/-- One step of the aggregation loop body
`langTotals[lang] = (langTotals[lang] || 0) + bytes`: an existing key is
updated in place, a new key is appended at the end (JS insertion order). -/
def updateTotals : LangMap → String → Nat → LangMap
  | [], lang, bytes => [(lang, bytes)]
  | (k, v) :: rest, lang, bytes =>
      if k = lang then (k, v + bytes) :: rest
      else (k, v) :: updateTotals rest lang bytes

/-- The inner `for (const [lang, bytes] of Object.entries(langs))` loop:
fold one repository's language map into the running totals. -/
def addRepoLangs (acc : LangMap) (langs : LangMap) : LangMap :=
  langs.foldl (fun m p => updateTotals m p.1 p.2) acc

/-- The language aggregation over the final repository list: each
repository's language fetch either yields a byte map (`some`) or fails
(`none`, the swallowed `catch`), in which case the totals are untouched.
The fold order models one completion order of the concurrent fetches. -/
def aggregateLangs (repos : List Repo) (fetch : Repo → Option LangMap) : LangMap :=
  repos.foldl
    (fun acc repo =>
      match fetch repo with
      | some langs => addRepoLangs acc langs
      | none => acc)
    []

/-- Key lookup in a JS-object model: `obj[lang]`, `none` when the key is absent. -/
def lookupLang : LangMap → String → Option Nat
  | [], _ => none
  | (k, v) :: rest, lang => if k = lang then some v else lookupLang rest lang

/-- The value stored for a key, defaulting to 0 (`obj[lang] || 0`). -/
def valOf (m : LangMap) (lang : String) : Nat := (lookupLang m lang).getD 0

/-- Whether a key is present in the object (`lang in obj`). -/
def hasLang (m : LangMap) (lang : String) : Bool := (lookupLang m lang).isSome

/-- Total bytes recorded for `lang` in a single repository's byte map. -/
def sumFor (langs : LangMap) (lang : String) : Nat :=
  ((langs.filter (fun p => p.1 == lang)).map Prod.snd).sum

/-- The pointwise sum of `lang`'s byte counts over all repositories whose
fetch succeeded. -/
def totalBytes (repos : List Repo) (fetch : Repo → Option LangMap)
    (lang : String) : Nat :=
  (repos.map (fun r =>
    match fetch r with
    | some langs => sumFor langs lang
    | none => 0)).sum

/-- Whether some repository's successful fetch mentions `lang` at all. -/
def fetchMentions (fetch : Repo → Option LangMap) (lang : String) (r : Repo) : Bool :=
  match fetch r with
  | some langs => langs.any (fun p => p.1 == lang)
  | none => false

/-- The upstream environment one `/api/analyze/:username` request observes:
whether a GitHub token is configured, the HTTP status and parsed body of
the profile fetch, the parsed body of the repository-list fetch (`none`
models a non-array JSON body), and the per-repository language fetches
(`none` models a failed fetch, swallowed by the handler's `catch`). -/
structure Env where
  hasToken : Bool
  profileStatus : Nat
  profileBody : Profile
  reposBody : Option (List Repo)
  langFetch : Repo → Option LangMap

/-- The JSON object sent by `res.json({...})` on success. -/
structure AnalysisResult where
  profile : Profile
  repositories : List Repo
  languagesByBytes : LangMap
  hireabilityScore : Int
  aiReview : String

/-- An HTTP response of the handler: either `res.status(s).json({error})`
or a 200 with the assembled analysis result. -/
inductive Response where
  | error (status : Nat) (message : String)
  | ok (result : AnalysisResult)

/-- `const shouldFilter = req.query.filter === 'true'`: strict string
equality against the literal `"true"`; an absent parameter is `none`. -/
def shouldFilter (filterParam : Option String) : Bool :=
  filterParam == some "true"

/-- `generateAIReview(profile, langTotals, hireabilityScore)`: the mock
review template.  `Object.keys(langTotals).join(', ') || fallback` and
`languageList.split(',')[0] || fallback` are modelled with JS falsiness of
the empty string. -/
def generateAIReview (profile : Profile) (langTotals : LangMap)
    (hireabilityScore : Int) : String :=
  let joined := String.intercalate ", " (langTotals.map Prod.fst)
  let languageList := if joined = "" then "No main languages detected." else joined
  let firstSegment := (languageList.splitOn ",").headD ""
  let focus := if firstSegment = "" then "core technologies" else firstSegment
  "This profile showcases a strong focus on " ++ focus ++
    ", backed by a Hireability Score of " ++ toString hireabilityScore ++
    "/100. The repository filter highlights " ++ toString profile.public_repos ++
    " public projects, demonstrating consistent activity. " ++
    "This candidate exhibits high potential for roles requiring deep expertise in " ++
    focus ++ ". (This is a mock AI review to demonstrate UI functionality.)"

/-- `Array.isArray(fetchedRepos) ? fetchedRepos : []`. -/
def coerceRepos : Option (List Repo) → List Repo
  | some l => l
  | none => []

/-- The `/api/analyze/:username` handler, step by step: token check,
profile fetch with its 404/401 short-circuits, repository fetch with the
non-array coercion, conditional filtering, language aggregation, scoring,
mock review, and response assembly. -/
def analyze (env : Env) (filterParam : Option String) : Response :=
  let sf := shouldFilter filterParam
  if !env.hasToken then
    .error 500 "Server configuration error: GitHub token missing."
  else if env.profileStatus = 404 then
    .error 404 "User not found"
  else if env.profileStatus = 401 then
    .error 401 "GitHub Token is invalid or expired."
  else
    let profile := env.profileBody
    let finalRepos0 := coerceRepos env.reposBody
    let finalRepos := if sf then filterLowValueRepos finalRepos0 else finalRepos0
    let langTotals := aggregateLangs finalRepos env.langFetch
    let hireabilityScore := calculateHireabilityScore profile finalRepos langTotals
    let aiReview := generateAIReview profile langTotals hireabilityScore
    .ok { profile := profile, repositories := finalRepos,
          languagesByBytes := langTotals, hireabilityScore := hireabilityScore,
          aiReview := aiReview }

/-- The HTTP status of a response (200 for the success branch). -/
def Response.statusOf : Response → Nat
  | .error s _ => s
  | .ok _ => 200

/-- The repository list carried by a success response ([] for errors). -/
def Response.repositoriesOf : Response → List Repo
  | .error _ _ => []
  | .ok r => r.repositories

/-- The effective repository list of a request: the coerced upstream list,
filtered exactly when the query flag is the string "true". -/
def finalReposOf (env : Env) (filterParam : Option String) : List Repo :=
  if shouldFilter filterParam then filterLowValueRepos (coerceRepos env.reposBody)
  else coerceRepos env.reposBody

/-- Example profile for the spec's Scenario A: 45 followers. -/
def profileScenA : Profile :=
  { login := "octocat", followers := 45, public_repos := 12 }

/-- Example repository for Scenario A: non-fork, size at least 100. -/
def repoScenA : Repo :=
  { name := "proj", fork := false, size := 250, description := some "a project" }

/-- Scenario A repository list: 12 repositories. -/
def reposScenA : List Repo := List.replicate 12 repoScenA

/-- Scenario A language totals: 3 distinct languages. -/
def langsScenA : LangMap := [("JavaScript", 5000), ("Python", 3000), ("HTML", 800)]

/-- Concrete repository used by the aggregation witnesses. -/
def repoAlpha : Repo :=
  { name := "alpha", fork := false, size := 300, description := none }

/-- Second concrete repository used by the aggregation witnesses. -/
def repoBeta : Repo :=
  { name := "beta", fork := false, size := 500, description := some "tools" }

/-- Third concrete repository (a small fork) whose language fetch fails. -/
def repoGamma : Repo :=
  { name := "gamma", fork := true, size := 40, description := none }

/-- A concrete deterministic fetch environment: `alpha` and `beta` succeed
with byte maps, `gamma`'s language fetch fails. -/
def fetchDemo (r : Repo) : Option LangMap :=
  if r.name = "alpha" then some [("Python", 70), ("HTML", 5)]
  else if r.name = "beta" then some [("Python", 30), ("Shell", 2)]
  else none

/-- An environment whose profile fetch returns upstream status 403 (non-2xx,
neither 404 nor 401), with a one-repository list available. -/
def envUpstream403 : Env :=
  { hasToken := true, profileStatus := 403, profileBody := profileScenA,
    reposBody := some [repoAlpha], langFetch := fetchDemo }

/-- An environment whose profile fetch returns upstream status 404. -/
def envUpstream404 : Env :=
  { hasToken := true, profileStatus := 404, profileBody := profileScenA,
    reposBody := none, langFetch := fetchDemo }

/-- A healthy environment: token present, profile fetch 200, an array of
three repositories, `gamma`'s language fetch failing. -/
def envHealthy : Env :=
  { hasToken := true, profileStatus := 200, profileBody := profileScenA,
    reposBody := some [repoAlpha, repoGamma, repoBeta], langFetch := fetchDemo }

/-- A healthy environment whose repository-list response is not an array. -/
def envNonArrayRepos : Env :=
  { hasToken := true, profileStatus := 200, profileBody := profileScenA,
    reposBody := none, langFetch := fetchDemo }

/-- Claim C1: the score calculator returns exactly
`min(100, max(0, T_f + T_v + T_d))` with the three capped terms of the
spec (the distinct-language count being the number of keys of the
language-totals map), and on Scenario A (followers 45, 12 repositories,
3 distinct languages) the score is 28. -/
theorem calculateHireabilityScore_eq_claimScoreFormula :
    (∀ (p : Profile) (repos : List Repo) (lt : LangMap),
        (lt.map Prod.fst).Nodup →
        calculateHireabilityScore p repos lt
          = claimScoreFormula p.followers repos.length lt.length)
    ∧ calculateHireabilityScore profileScenA reposScenA langsScenA = 28 := by
  constructor
  · intro p repos lt _hnd
    simp [calculateHireabilityScore, claimScoreFormula]
  · decide

/-- Witness for C1: the formula correspondence applied on Scenario A,
with the key-distinctness hypothesis discharged concretely. -/
theorem calculateHireabilityScore_eq_claimScoreFormula_witness :
    calculateHireabilityScore profileScenA reposScenA langsScenA
      = claimScoreFormula 45 12 3 :=
  calculateHireabilityScore_eq_claimScoreFormula.1 profileScenA reposScenA
    langsScenA (by decide)

/-- Claim C2: for every input the score lies in [0, 100]; the final step
of the calculator clamps the sum of the three terms to this interval. -/
theorem calculateHireabilityScore_bounds (p : Profile) (repos : List Repo)
    (lt : LangMap) :
    0 ≤ calculateHireabilityScore p repos lt
    ∧ calculateHireabilityScore p repos lt ≤ 100 := by
  simp only [calculateHireabilityScore]
  omega

/-- Claim C8: the score is monotonically non-decreasing in followers, in
repository-list length, and in the number of language keys, the other
inputs held fixed (stated jointly: raising any subset of the three numeric
inputs never lowers the score). -/
theorem calculateHireabilityScore_monotone (p₁ p₂ : Profile)
    (r₁ r₂ : List Repo) (lt₁ lt₂ : LangMap)
    (hf : p₁.followers ≤ p₂.followers)
    (hr : r₁.length ≤ r₂.length)
    (hl : (lt₁.map Prod.fst).length ≤ (lt₂.map Prod.fst).length) :
    calculateHireabilityScore p₁ r₁ lt₁ ≤ calculateHireabilityScore p₂ r₂ lt₂ := by
  simp only [calculateHireabilityScore, List.length_map] at *
  omega

/-- Witness for C8: monotonicity applied at concrete inputs (more
followers, more repositories, more languages). -/
theorem calculateHireabilityScore_monotone_witness :
    calculateHireabilityScore { login := "a", followers := 10, public_repos := 1 } [] []
      ≤ calculateHireabilityScore profileScenA reposScenA langsScenA :=
  calculateHireabilityScore_monotone _ _ _ _ _ _ (by decide) (by decide) (by decide)

/-- Claim C4: `filter(repos, false)` is the identity, and
`filter(repos, true)` removes exactly the repositories that are forks, or
have size below 100, or whose lowercased description contains "template";
being a `List.filter`, it preserves the survivors' relative order and adds
nothing (stated via `List.Sublist`). -/
theorem applyFilter_identity_and_removal (repos : List Repo) :
    applyFilter repos false = repos
    ∧ applyFilter repos true
        = repos.filter (fun r =>
            !(r.fork || decide (r.size < 100)
              || descMentionsTemplate r.description))
    ∧ (applyFilter repos true).Sublist repos := by
  refine ⟨rfl, ?_, ?_⟩
  · simp only [applyFilter, filterLowValueRepos, if_true]
    apply List.filter_congr
    intro r _
    cases hf : r.fork <;>
      by_cases hs : r.size < 100 <;>
        cases hd : descMentionsTemplate r.description <;>
          simp [hf, hs, hd]
  · simp only [applyFilter, filterLowValueRepos, if_true]
    exact List.filter_sublist repos

theorem lookupLang_updateTotals (m : LangMap) (k lang : String) (b : Nat) :
    lookupLang (updateTotals m k b) lang
      = if k = lang then some (valOf m lang + b) else lookupLang m lang := by
  induction m with
  | nil =>
      by_cases h : k = lang <;> simp [updateTotals, lookupLang, valOf, h]
  | cons hd tl ih =>
      obtain ⟨k₀, v₀⟩ := hd
      by_cases h₀ : k₀ = k
      · subst h₀
        by_cases h : k₀ = lang <;>
          simp [updateTotals, lookupLang, valOf, h]
      · by_cases h : k₀ = lang
        · subst h
          have hk : ¬ k = k₀ := fun hh => h₀ hh.symm
          simp [updateTotals, lookupLang, valOf, h₀, hk]
        · simp [updateTotals, lookupLang, valOf, h₀, h, ih]

theorem valOf_updateTotals (m : LangMap) (k lang : String) (b : Nat) :
    valOf (updateTotals m k b) lang
      = valOf m lang + (if k = lang then b else 0) := by
  by_cases h : k = lang <;> simp [valOf, lookupLang_updateTotals, h]

theorem hasLang_updateTotals (m : LangMap) (k lang : String) (b : Nat) :
    hasLang (updateTotals m k b) lang = (hasLang m lang || k == lang) := by
  by_cases h : k = lang <;> simp [hasLang, lookupLang_updateTotals, h]

theorem sumFor_cons (p : String × Nat) (rest : LangMap) (lang : String) :
    sumFor (p :: rest) lang
      = (if p.1 = lang then p.2 else 0) + sumFor rest lang := by
  by_cases h : p.1 = lang <;> simp [sumFor, List.filter_cons, h]

theorem valOf_addRepoLangs (langs : LangMap) (m : LangMap) (lang : String) :
    valOf (addRepoLangs m langs) lang = valOf m lang + sumFor langs lang := by
  induction langs generalizing m with
  | nil => simp [addRepoLangs, sumFor]
  | cons p rest ih =>
      simp only [addRepoLangs, List.foldl_cons] at *
      rw [ih, valOf_updateTotals, sumFor_cons]
      omega

theorem hasLang_addRepoLangs (langs : LangMap) (m : LangMap) (lang : String) :
    hasLang (addRepoLangs m langs) lang
      = (hasLang m lang || langs.any (fun p => p.1 == lang)) := by
  induction langs generalizing m with
  | nil => simp [addRepoLangs]
  | cons p rest ih =>
      simp only [addRepoLangs, List.foldl_cons, List.any_cons] at *
      rw [ih, hasLang_updateTotals]
      by_cases h : p.1 = lang <;> simp [h, Bool.or_comm, Bool.or_assoc]

theorem valOf_aggregate_from (repos : List Repo) (fetch : Repo → Option LangMap)
    (lang : String) (m : LangMap) :
    valOf (repos.foldl
      (fun acc repo =>
        match fetch repo with
        | some langs => addRepoLangs acc langs
        | none => acc) m) lang
      = valOf m lang + totalBytes repos fetch lang := by
  induction repos generalizing m with
  | nil => simp [totalBytes]
  | cons r rest ih =>
      simp only [List.foldl_cons, totalBytes, List.map_cons, List.sum_cons]
      cases hfr : fetch r with
      | none => rw [ih]; simp [totalBytes]
      | some langs =>
          rw [ih, valOf_addRepoLangs]
          simp [totalBytes]
          omega

theorem hasLang_aggregate_from (repos : List Repo) (fetch : Repo → Option LangMap)
    (lang : String) (m : LangMap) :
    hasLang (repos.foldl
      (fun acc repo =>
        match fetch repo with
        | some langs => addRepoLangs acc langs
        | none => acc) m) lang
      = (hasLang m lang || repos.any (fetchMentions fetch lang)) := by
  induction repos generalizing m with
  | nil => simp
  | cons r rest ih =>
      simp only [List.foldl_cons, List.any_cons]
      cases hfr : fetch r with
      | none => rw [ih]; simp [fetchMentions, hfr]
      | some langs =>
          rw [ih, hasLang_addRepoLangs]
          simp [fetchMentions, hfr, Bool.or_assoc]

theorem valOf_aggregateLangs (repos : List Repo) (fetch : Repo → Option LangMap)
    (lang : String) :
    valOf (aggregateLangs repos fetch) lang = totalBytes repos fetch lang := by
  have h := valOf_aggregate_from repos fetch lang []
  simpa [aggregateLangs, valOf, lookupLang] using h

theorem hasLang_aggregateLangs (repos : List Repo) (fetch : Repo → Option LangMap)
    (lang : String) :
    hasLang (aggregateLangs repos fetch) lang
      = repos.any (fetchMentions fetch lang) := by
  have h := hasLang_aggregate_from repos fetch lang []
  simpa [aggregateLangs, hasLang, lookupLang] using h

theorem lookupLang_eq_ite (m : LangMap) (lang : String) :
    lookupLang m lang = if hasLang m lang then some (valOf m lang) else none := by
  cases h : lookupLang m lang <;> simp [hasLang, valOf, h]

theorem totalBytes_perm (repos reposPerm : List Repo)
    (fetch : Repo → Option LangMap) (lang : String)
    (h : reposPerm.Perm repos) :
    totalBytes reposPerm fetch lang = totalBytes repos fetch lang :=
  (h.map _).sum_eq

theorem any_mentions_perm (repos reposPerm : List Repo)
    (fetch : Repo → Option LangMap) (lang : String)
    (h : reposPerm.Perm repos) :
    reposPerm.any (fetchMentions fetch lang)
      = repos.any (fetchMentions fetch lang) := by
  rw [Bool.eq_iff_iff]
  simp only [List.any_eq_true]
  constructor
  · rintro ⟨r, hr, hm⟩
    exact ⟨r, h.mem_iff.mp hr, hm⟩
  · rintro ⟨r, hr, hm⟩
    exact ⟨r, h.mem_iff.mpr hr, hm⟩

/-- Claim C5: language aggregation is order-independent.  Aggregating any
permutation of the repository list yields an extensionally identical
totals map (the same lookup result for every language), and each present
language is mapped to the pointwise sum of its byte counts over all
repositories whose fetch succeeded. -/
theorem aggregateLangs_perm_invariant (repos reposPerm : List Repo)
    (fetch : Repo → Option LangMap) (lang : String)
    (h : reposPerm.Perm repos) :
    lookupLang (aggregateLangs reposPerm fetch) lang
      = lookupLang (aggregateLangs repos fetch) lang
    ∧ valOf (aggregateLangs repos fetch) lang = totalBytes repos fetch lang := by
  refine ⟨?_, valOf_aggregateLangs repos fetch lang⟩
  rw [lookupLang_eq_ite, lookupLang_eq_ite, hasLang_aggregateLangs,
    hasLang_aggregateLangs, valOf_aggregateLangs, valOf_aggregateLangs,
    any_mentions_perm repos reposPerm fetch lang h,
    totalBytes_perm repos reposPerm fetch lang h]

/-- Witness for C5: aggregating `[beta, alpha]` and `[alpha, beta]` gives
the same lookup for "Python", and the total is the pointwise sum 100. -/
theorem aggregateLangs_perm_invariant_witness :
    lookupLang (aggregateLangs [repoBeta, repoAlpha] fetchDemo) "Python"
      = lookupLang (aggregateLangs [repoAlpha, repoBeta] fetchDemo) "Python"
    ∧ valOf (aggregateLangs [repoAlpha, repoBeta] fetchDemo) "Python"
      = totalBytes [repoAlpha, repoBeta] fetchDemo "Python" :=
  aggregateLangs_perm_invariant [repoAlpha, repoBeta] [repoBeta, repoAlpha]
    fetchDemo "Python" (by decide)

/-- Claim C6: a repository whose language fetch fails is a strict no-op in
the aggregation — inserting it anywhere in the repository list leaves the
resulting totals map exactly unchanged, so it contributes 0 bytes to every
language and creates no entry — and such failures never abort the request:
whatever the language-fetch outcomes, a request that passed the profile
stage still answers 200. -/
theorem aggregateLangs_failed_fetch_noop (xs ys : List Repo) (r : Repo)
    (fetch : Repo → Option LangMap) (hfail : fetch r = none) :
    aggregateLangs (xs ++ r :: ys) fetch = aggregateLangs (xs ++ ys) fetch
    ∧ ∀ (env : Env) (q : Option String), env.hasToken = true →
        env.profileStatus ≠ 404 → env.profileStatus ≠ 401 →
        Response.statusOf (analyze env q) = 200 := by
  constructor
  · simp [aggregateLangs, List.foldl_append, hfail]
  · intro env q htok h404 h401
    simp [analyze, htok, h404, h401, Response.statusOf]

/-- Witness for C6: inserting the failing repository `gamma` between
`alpha` and `beta` leaves the aggregate untouched, and the healthy
environment (whose `gamma` language fetch fails) still answers 200. -/
theorem aggregateLangs_failed_fetch_noop_witness :
    fetchDemo repoGamma = none
    ∧ aggregateLangs [repoAlpha, repoGamma, repoBeta] fetchDemo
        = aggregateLangs [repoAlpha, repoBeta] fetchDemo
    ∧ Response.statusOf (analyze envHealthy none) = 200 := by
  have h := aggregateLangs_failed_fetch_noop [repoAlpha] [repoBeta] repoGamma
    fetchDemo rfl
  exact ⟨rfl, h.1, h.2 envHealthy none rfl (by decide) (by decide)⟩

/-- Counterexample to claim C3 as stated: an upstream profile status of 403
(non-2xx) does NOT short-circuit the handler — only 404 and 401 are
checked — so the request proceeds to the repository fetch and answers 200
carrying the fetched repository list, and no error with the upstream
status is reported. -/
theorem analyze_upstream403_no_shortcircuit :
    Response.statusOf (analyze envUpstream403 none) = 200
    ∧ Response.repositoriesOf (analyze envUpstream403 none) = [repoAlpha] := by
  constructor <;> rfl

/-- Claim C3 (amended): with a token configured, upstream profile status
404 yields response 404 with "User not found", 401 yields response 401;
every other upstream status — 2xx or not — is not short-circuited: the
handler proceeds to the repository fetch and responds 200. -/
theorem analyze_profile_status_handling (env : Env) (q : Option String)
    (htok : env.hasToken = true) :
    (env.profileStatus = 404 →
      analyze env q = Response.error 404 "User not found")
    ∧ (env.profileStatus = 401 →
      analyze env q = Response.error 401 "GitHub Token is invalid or expired.")
    ∧ (env.profileStatus ≠ 404 → env.profileStatus ≠ 401 →
      Response.statusOf (analyze env q) = 200) := by
  refine ⟨fun h404 => ?_, fun h401 => ?_, fun h404 h401 => ?_⟩
  · simp [analyze, htok, h404]
  · simp [analyze, htok, h401]
  · simp [analyze, htok, h404, h401, Response.statusOf]

/-- Witness for the amended C3: the 404 branch on a concrete environment. -/
theorem analyze_profile_status_handling_witness :
    analyze envUpstream404 none = Response.error 404 "User not found" :=
  (analyze_profile_status_handling envUpstream404 none rfl).1 rfl

/-- Claim C7: every success response reports exactly the effective
(post-filter) repository list, and both the language totals and the score
in the same response are computed from that very list. -/
theorem analyze_consistent_repo_set (env : Env) (q : Option String)
    (htok : env.hasToken = true) (h404 : env.profileStatus ≠ 404)
    (h401 : env.profileStatus ≠ 401) :
    analyze env q = Response.ok
      { profile := env.profileBody,
        repositories := finalReposOf env q,
        languagesByBytes := aggregateLangs (finalReposOf env q) env.langFetch,
        hireabilityScore := calculateHireabilityScore env.profileBody
          (finalReposOf env q)
          (aggregateLangs (finalReposOf env q) env.langFetch),
        aiReview := generateAIReview env.profileBody
          (aggregateLangs (finalReposOf env q) env.langFetch)
          (calculateHireabilityScore env.profileBody (finalReposOf env q)
            (aggregateLangs (finalReposOf env q) env.langFetch)) } := by
  simp [analyze, htok, h404, h401, finalReposOf]

/-- Witness for C7 on a concrete healthy environment with filtering on. -/
theorem analyze_consistent_repo_set_witness :
    analyze envHealthy (some "true") = Response.ok
      { profile := envHealthy.profileBody,
        repositories := finalReposOf envHealthy (some "true"),
        languagesByBytes :=
          aggregateLangs (finalReposOf envHealthy (some "true"))
            envHealthy.langFetch,
        hireabilityScore := calculateHireabilityScore envHealthy.profileBody
          (finalReposOf envHealthy (some "true"))
          (aggregateLangs (finalReposOf envHealthy (some "true"))
            envHealthy.langFetch),
        aiReview := generateAIReview envHealthy.profileBody
          (aggregateLangs (finalReposOf envHealthy (some "true"))
            envHealthy.langFetch)
          (calculateHireabilityScore envHealthy.profileBody
            (finalReposOf envHealthy (some "true"))
            (aggregateLangs (finalReposOf envHealthy (some "true"))
              envHealthy.langFetch)) } :=
  analyze_consistent_repo_set envHealthy (some "true") rfl (by decide) (by decide)

/-- Claim C9: when the upstream repository-list body is not an array, the
handler proceeds with an empty effective list — empty repositories, empty
language totals, the score computed over the empty list — instead of
reporting an error. -/
theorem analyze_nonarray_repos_as_empty (env : Env) (q : Option String)
    (htok : env.hasToken = true) (h404 : env.profileStatus ≠ 404)
    (h401 : env.profileStatus ≠ 401) (hrepos : env.reposBody = none) :
    analyze env q = Response.ok
      { profile := env.profileBody,
        repositories := [],
        languagesByBytes := [],
        hireabilityScore := calculateHireabilityScore env.profileBody [] [],
        aiReview := generateAIReview env.profileBody []
          (calculateHireabilityScore env.profileBody [] []) } := by
  cases hsf : shouldFilter q <;>
    simp [analyze, htok, h404, h401, hrepos, hsf, coerceRepos,
      filterLowValueRepos, aggregateLangs]

/-- Witness for C9 on a concrete environment with a non-array body. -/
theorem analyze_nonarray_repos_as_empty_witness :
    analyze envNonArrayRepos none = Response.ok
      { profile := envNonArrayRepos.profileBody,
        repositories := [],
        languagesByBytes := [],
        hireabilityScore :=
          calculateHireabilityScore envNonArrayRepos.profileBody [] [],
        aiReview := generateAIReview envNonArrayRepos.profileBody []
          (calculateHireabilityScore envNonArrayRepos.profileBody [] []) } :=
  analyze_nonarray_repos_as_empty envNonArrayRepos none rfl (by decide)
    (by decide) rfl

/-- Claim C10: the filter toggle is on exactly when the `filter` query
parameter is the string "true"; any other value (such as "TRUE", "1",
"yes", or an absent parameter) leaves the repository list unfiltered, and
no value of the parameter causes an error (the request still answers 200). -/
theorem shouldFilter_strict_true (q : Option String) (env : Env)
    (htok : env.hasToken = true) (h404 : env.profileStatus ≠ 404)
    (h401 : env.profileStatus ≠ 401) :
    (shouldFilter q = true ↔ q = some "true")
    ∧ (q = some "true" →
        Response.repositoriesOf (analyze env q)
          = filterLowValueRepos (coerceRepos env.reposBody))
    ∧ (q ≠ some "true" →
        Response.repositoriesOf (analyze env q) = coerceRepos env.reposBody)
    ∧ Response.statusOf (analyze env q) = 200 := by
  refine ⟨?_, fun h => ?_, fun h => ?_, ?_⟩
  · simp [shouldFilter]
  · simp [analyze, htok, h404, h401, shouldFilter, h, Response.repositoriesOf]
  · have hsf : shouldFilter q = false := by simpa [shouldFilter] using h
    simp [analyze, htok, h404, h401, hsf, Response.repositoriesOf]
  · cases hsf : shouldFilter q <;>
      simp [analyze, htok, h404, h401, hsf, Response.statusOf]

/-- Witness for C10: the unrecognized value "TRUE" leaves the list
unfiltered on a concrete environment. -/
theorem shouldFilter_strict_true_witness :
    Response.repositoriesOf (analyze envHealthy (some "TRUE"))
      = coerceRepos envHealthy.reposBody :=
  (shouldFilter_strict_true (some "TRUE") envHealthy rfl (by decide)
    (by decide)).2.2.1 (by decide)
